import Mathlib

/-!
Verification of the hybrid-encryption log client (`src/crypto.py`,
class `HybridCryptoClient`).

The client is embedded shallowly:

* bytes are `List Nat` (each entry a byte value);
* the external primitives the code calls (`os.urandom`, AES block
  encryption, RSA-OAEP wrapping, PEM parsing, `requests.post`) are
  explicit parameters: randomness becomes the `aes_key`/`iv` arguments,
  the cryptographic primitives a `CryptoBackend`, and the HTTP transport
  a `respond` function returning the status code;
* the observable side effects (calls to the random source, the cipher,
  the key parser and the network) are recorded in an event trace, so
  ordering claims ("fails before any cryptographic work", "no retry")
  become statements about the trace;
* `json.dumps` (default options) is modelled by `dumpsMap` over a
  datatype of string-keyed mappings with JSON-compatible leaves plus a
  `raw` leaf standing for a non-serializable Python object.
-/

/-- Byte strings are lists of naturals. -/
abbrev Bytes := List Nat

/-- UTF-8 encoding of one character (model of Python `str.encode("utf-8")`). -/
def utf8EncodeChar (c : Char) : List Nat :=
  let n := c.toNat
  if n < 128 then [n]
  else if n < 2048 then [192 + n / 64, 128 + n % 64]
  else if n < 65536 then [224 + n / 4096, 128 + n / 64 % 64, 128 + n % 64]
  else [240 + n / 262144, 128 + n / 4096 % 64, 128 + n / 64 % 64, 128 + n % 64]

/-- UTF-8 encoding of a string, as bytes. -/
def utf8Encode (s : String) : Bytes :=
  (s.data.map utf8EncodeChar).flatten

/-- JSON-compatible leaf values of a payload mapping, plus `raw` for a
Python object `json.dumps` cannot serialize. -/
inductive JLeaf where
  | s (v : String)
  | i (v : Int)
  | b (v : Bool)
  | null
  | raw (tag : String)
deriving DecidableEq

/-- The payload accepted by `encrypt_data`: a Python `str`, or a
string-keyed mapping (`dict`) with JSON-compatible leaves. -/
inductive PyData where
  | str (s : String)
  | map (fields : List (String × JLeaf))
deriving DecidableEq

/-- Lowercase hexadecimal digit. -/
def hexDigit (n : Nat) : Char :=
  if n < 10 then Char.ofNat (48 + n) else Char.ofNat (87 + n % 16)

/-- Four lowercase hex digits, as used in JSON `\uXXXX` escapes. -/
def hex4 (n : Nat) : String :=
  String.mk [hexDigit (n / 4096 % 16), hexDigit (n / 256 % 16),
             hexDigit (n / 16 % 16), hexDigit (n % 16)]

/-- Escaping of one character inside a JSON string literal, following
Python `json.dumps` defaults (`ensure_ascii=True`). -/
def jsonEscapeChar (c : Char) : String :=
  if c = '"' then "\\\""
  else if c = '\\' then "\\\\"
  else if c = '\n' then "\\n"
  else if c = '\t' then "\\t"
  else if c = '\r' then "\\r"
  else if c.toNat = 8 then "\\b"
  else if c.toNat = 12 then "\\f"
  else if c.toNat < 32 ∨ c.toNat > 126 then
    if c.toNat < 65536 then "\\u" ++ hex4 c.toNat
    else
      let n := c.toNat - 65536
      "\\u" ++ hex4 (55296 + n / 1024) ++ "\\u" ++ hex4 (56320 + n % 1024)
  else String.singleton c

/-- JSON string literal (model of `json.dumps` on a `str`). -/
def dumpsString (s : String) : String :=
  "\"" ++ String.join (s.data.map jsonEscapeChar) ++ "\""

/-- Serialization of one leaf; `none` models the `TypeError` that
`json.dumps` raises on a non-serializable object. -/
def dumpsLeaf : JLeaf → Option String
  | .s v => some (dumpsString v)
  | .i v => some (toString v)
  | .b v => some (if v then "true" else "false")
  | .null => some "null"
  | .raw _ => none

/-- Serialization of the `"key": value` members of a mapping, in insertion
order, as `json.dumps` does for a `dict`. -/
def dumpsFields : List (String × JLeaf) → Option (List String)
  | [] => some []
  | (k, v) :: rest =>
      match dumpsLeaf v, dumpsFields rest with
      | some sv, some srest => some ((dumpsString k ++ ": " ++ sv) :: srest)
      | _, _ => none

/-- Model of `json.dumps` with default separators on a string-keyed dict. -/
def dumpsMap (fields : List (String × JLeaf)) : Option String :=
  (dumpsFields fields).map
    (fun parts => "\x7b" ++ String.intercalate ", " parts ++ "\x7d")

/-- Step 1 of `encrypt_data` (crypto.py lines 58-59):
`json_str = json.dumps(data) if not isinstance(data, str) else data`
followed by `json_str.encode("utf-8")`. A `str` passes through unchanged;
a mapping goes through `json.dumps`; `none` models the raised `TypeError`. -/
def serializePayload : PyData → Option Bytes
  | .str s => some (utf8Encode s)
  | .map fields => (dumpsMap fields).map utf8Encode

/-- A leaf the serializer accepts. -/
def JLeaf.serializable : JLeaf → Bool
  | .raw _ => false
  | _ => true

/-- Bytewise XOR (truncating to the shorter list), the block-combination
step of CBC mode. -/
def zipXor (a b : Bytes) : Bytes :=
  List.zipWith (fun x y => x ^^^ y) a b

/-- PKCS#7 padding as written in crypto.py lines 79-81:
`padding_length = 16 - (len(json_bytes) % 16)` and
`json_bytes + bytes([padding_length] * padding_length)`. -/
def pad16 (json_bytes : Bytes) : Bytes :=
  let padding_length := 16 - json_bytes.length % 16
  json_bytes ++ List.replicate padding_length padding_length

/-- Stripping PKCS#7 padding: read the last byte and drop that many
trailing bytes. -/
def unpadPKCS7 (bs : Bytes) : Bytes :=
  bs.take (bs.length - (bs.getLast?.getD 0))

/-- CBC-mode encryption over 16-byte blocks, fuel-indexed so it is
structural: each step encrypts `prev XOR block` and chains the output. -/
def cbcEncryptGo (E : Bytes → Bytes) : Nat → Bytes → Bytes → Bytes
  | _, _, [] => []
  | 0, _, _ :: _ => []
  | fuel + 1, prev, a :: as =>
      let c := E (zipXor prev (a :: as.take 15))
      c ++ cbcEncryptGo E fuel c (as.drop 15)

/-- CBC encryption of a whole (padded) plaintext with initialization
vector `iv`; models `encryptor.update(padded_data) + encryptor.finalize()`
for `Cipher(algorithms.AES(key), modes.CBC(iv))`. -/
def cbcEncrypt (E : Bytes → Bytes) (iv data : Bytes) : Bytes :=
  cbcEncryptGo E data.length iv data

/-- CBC-mode decryption over 16-byte blocks, fuel-indexed. -/
def cbcDecryptGo (D : Bytes → Bytes) : Nat → Bytes → Bytes → Bytes
  | _, _, [] => []
  | 0, _, _ :: _ => []
  | fuel + 1, prev, a :: as =>
      zipXor prev (D (a :: as.take 15)) ++
        cbcDecryptGo D fuel (a :: as.take 15) (as.drop 15)

/-- CBC decryption of a whole ciphertext with initialization vector `iv`. -/
def cbcDecrypt (D : Bytes → Bytes) (iv ct : Bytes) : Bytes :=
  cbcDecryptGo D ct.length iv ct

/-- The external cryptographic primitives `encrypt_data` calls:
`parseKey` models `load_pem_public_key` (returning the parsed key's
modulus byte length, `none` on malformed PEM), `wrap` models
`public_key_obj.encrypt(..., OAEP(MGF1(SHA256), SHA256, label=None))`,
and `blockEnc` models one AES-256 block encryption under the given key. -/
structure CryptoBackend where
  parseKey : String → Option Nat
  wrap : Nat → Bytes → Bytes
  blockEnc : Bytes → Bytes → Bytes

/-- Observable side effects of the client, recorded as a trace. -/
inductive Event where
  | randomGen (nbytes : Nat)
  | aesEncrypt
  | rsaParse
  | rsaWrap
  | httpPost (url : String) (contentType : String) (body : Bytes)
deriving DecidableEq

/-- State of a `HybridCryptoClient` instance. -/
structure HybridCryptoClient where
  api_url : String
  public_key : Option String
  iv_length : Nat
deriving DecidableEq

/-- `HybridCryptoClient.__init__` (crypto.py lines 12-21). -/
def mkClient (api_url : String) : HybridCryptoClient :=
  { api_url := api_url, public_key := none, iv_length := 16 }

/-- `set_public_key` (crypto.py lines 23-34): stores the PEM string
unparsed and returns `True`. -/
def set_public_key (c : HybridCryptoClient) (public_key_pem : String) :
    HybridCryptoClient × Bool :=
  ({ c with public_key := some public_key_pem }, true)

/-- Python truthiness of the stored key: `not self.public_key` is true
for `None` and for the empty string. -/
def pyFalsyKey : Option String → Bool
  | none => true
  | some s => s.isEmpty

/-- Error taxonomy of the client. -/
inductive CryptoErr where
  | configurationError
  | serializationError
  | keyFormatError
  | submissionError (status : Nat)
deriving DecidableEq

/-- Shallow embedding of `encrypt_data` (crypto.py lines 36-105).
Randomness is passed in as `aes_key` (the `os.urandom(32)` result) and
`iv` (the `os.urandom(self.iv_length)` result); the returned trace
records the side effects in the order the Python code performs them:
the key check, then `json.dumps`/`encode` (which can raise before any
randomness is drawn), then the two `os.urandom` calls, the AES-CBC
encryption, the PEM parse (which is where a malformed key surfaces), and
the OAEP wrap; the packet is `encrypted_aes_key + iv + encrypted_content`. -/
def encrypt_data (B : CryptoBackend) (c : HybridCryptoClient)
    (aes_key iv : Bytes) (data : PyData) :
    List Event × Except CryptoErr Bytes :=
  if pyFalsyKey c.public_key then
    ([], .error .configurationError)
  else
    match serializePayload data with
    | none => ([], .error .serializationError)
    | some json_bytes =>
        let ev := [Event.randomGen 32, Event.randomGen c.iv_length]
        let padded_data := pad16 json_bytes
        let encrypted_content := cbcEncrypt (B.blockEnc aes_key) iv padded_data
        match B.parseKey (c.public_key.getD "") with
        | none => (ev ++ [Event.aesEncrypt, Event.rsaParse], .error .keyFormatError)
        | some pk =>
            let encrypted_aes_key := B.wrap pk aes_key
            (ev ++ [Event.aesEncrypt, Event.rsaParse, Event.rsaWrap],
             .ok (encrypted_aes_key ++ iv ++ encrypted_content))

/-- Shallow embedding of `submit_log` (crypto.py lines 107-139): encrypt,
POST the packet to `<api_url>/api/logs` as `application/octet-stream`,
accept exactly the statuses `[200, 201, 202, 204]`, raise
`SubmissionError` with the status otherwise; the `except` block only
logs and re-raises, so errors pass through unchanged and no retry
happens. `respond` models `requests.post`, giving the status code the
server returns for a URL and body. -/
def submit_log (B : CryptoBackend) (c : HybridCryptoClient)
    (aes_key iv : Bytes) (log_data : PyData)
    (respond : String → Bytes → Nat) :
    List Event × Except CryptoErr Nat :=
  match encrypt_data B c aes_key iv log_data with
  | (ev, .error e) => (ev, .error e)
  | (ev, .ok encrypted_data) =>
      let url := c.api_url ++ "/api/logs"
      let status := respond url encrypted_data
      let ev' := ev ++ [Event.httpPost url "application/octet-stream" encrypted_data]
      if status ∈ [200, 201, 202, 204] then
        (ev', .ok status)
      else
        (ev', .error (.submissionError status))

/-- Recognizer for network events in a trace. -/
def isHttpPost : Event → Bool
  | .httpPost _ _ _ => true
  | _ => false

/-- Recognizer for cryptographic-work events in a trace (random-source
draws, cipher use, key parsing or wrapping). -/
def isCryptoWork : Event → Bool
  | .httpPost _ _ _ => false
  | _ => true

/-- Modelled from the spec: the receiver-side decryption procedure the
spec describes (receiver code is out of the repository's scope) — RSA
unwrap of the first `N` bytes, AES-256-CBC decryption of the remainder
using the next 16 bytes as IV, then stripping the PKCS#7 padding.
`unwrap` is the private-key OAEP decryption, `blockDec` one AES block
decryption under a key. -/
def decrypt_packet (N : Nat) (unwrap : Bytes → Bytes)
    (blockDec : Bytes → Bytes → Bytes) (packet : Bytes) : Bytes :=
  let wrappedKey := packet.take N
  let rest := packet.drop N
  let iv := rest.take 16
  let ct := rest.drop 16
  let key := unwrap wrappedKey
  unpadPKCS7 (cbcDecrypt (blockDec key) iv ct)

/-- Rounding up to the next multiple of 16, as used by the spec's packet
length invariant. -/
def ceil16 (n : Nat) : Nat := 16 * ((n + 15) / 16)

/-! ### Helper lemmas: XOR, CBC, padding -/

theorem zipXor_length (a b : Bytes) :
    (zipXor a b).length = min a.length b.length := by
  simp [zipXor]

theorem zipXor_zipXor_cancel :
    ∀ (a b : Bytes), b.length ≤ a.length → zipXor a (zipXor a b) = b
  | _, [], _ => by simp [zipXor]
  | [], _ :: _, h => by simp at h
  | x :: xs, y :: ys, h => by
      simp only [zipXor, List.zipWith_cons_cons]
      have hx : x ^^^ (x ^^^ y) = y := by
        rw [← Nat.xor_assoc, Nat.xor_self, Nat.zero_xor]
      have := zipXor_zipXor_cancel xs ys (by simpa using h)
      simpa [zipXor, hx] using this

theorem cbcEncryptGo_nil (E : Bytes → Bytes) (fuel : Nat) (prev : Bytes) :
    cbcEncryptGo E fuel prev [] = [] := by
  cases fuel <;> rfl

theorem cbcDecryptGo_nil (D : Bytes → Bytes) (fuel : Nat) (prev : Bytes) :
    cbcDecryptGo D fuel prev [] = [] := by
  cases fuel <;> rfl

theorem cbcEncryptGo_length (E : Bytes → Bytes)
    (hE : ∀ b, b.length = 16 → (E b).length = 16) :
    ∀ (fuel : Nat) (prev data : Bytes), data.length ≤ fuel →
      data.length % 16 = 0 → prev.length = 16 →
      (cbcEncryptGo E fuel prev data).length = data.length := by
  intro fuel
  induction fuel with
  | zero =>
      intro prev data h1 _ _
      have : data = [] := List.eq_nil_of_length_eq_zero (Nat.le_zero.mp h1)
      subst this
      simp [cbcEncryptGo_nil]
  | succ f ih =>
      intro prev data h1 hmod hprev
      match data with
      | [] => simp [cbcEncryptGo_nil]
      | a :: as =>
          have has : 15 ≤ as.length := by
            have := hmod
            simp only [List.length_cons] at this h1 ⊢
            omega
          have hb : (a :: as.take 15).length = 16 := by
            simp [List.length_take]
            omega
          have hxlen : (zipXor prev (a :: as.take 15)).length = 16 := by
            rw [zipXor_length, hprev, hb]; exact min_self 16
          have hc : (E (zipXor prev (a :: as.take 15))).length = 16 :=
            hE _ hxlen
          simp only [cbcEncryptGo, List.length_append, hc]
          rw [ih _ _ (by simp [List.length_drop] at h1 ⊢; omega)
            (by simp [List.length_drop] at hmod ⊢; omega) hc]
          simp [List.length_drop, List.length_cons] at hmod ⊢
          omega

theorem cbc_go_roundtrip (E D : Bytes → Bytes)
    (hE : ∀ b, b.length = 16 → (E b).length = 16)
    (hDE : ∀ b, b.length = 16 → D (E b) = b) :
    ∀ (fuel₁ fuel₂ : Nat) (prev data : Bytes),
      data.length ≤ fuel₁ → data.length ≤ fuel₂ →
      data.length % 16 = 0 → prev.length = 16 →
      cbcDecryptGo D fuel₂ prev (cbcEncryptGo E fuel₁ prev data) = data := by
  intro fuel₁
  induction fuel₁ with
  | zero =>
      intro fuel₂ prev data h1 _ _ _
      have : data = [] := List.eq_nil_of_length_eq_zero (Nat.le_zero.mp h1)
      subst this
      simp [cbcEncryptGo_nil, cbcDecryptGo_nil]
  | succ f ih =>
      intro fuel₂ prev data h1 h2 hmod hprev
      match data with
      | [] => simp [cbcEncryptGo_nil, cbcDecryptGo_nil]
      | a :: as =>
          have has : 15 ≤ as.length := by
            simp only [List.length_cons] at hmod
            omega
          have hb : (a :: as.take 15).length = 16 := by
            simp [List.length_take]; omega
          have hxlen : (zipXor prev (a :: as.take 15)).length = 16 := by
            rw [zipXor_length, hprev, hb]; exact min_self 16
          have hc : (E (zipXor prev (a :: as.take 15))).length = 16 :=
            hE _ hxlen
          obtain ⟨c0, cs, hcs, hceq⟩ :
              ∃ c0 cs, cs.length = 15 ∧
                E (zipXor prev (a :: as.take 15)) = c0 :: cs := by
            cases hE0 : E (zipXor prev (a :: as.take 15)) with
            | nil => rw [hE0] at hc; simp at hc
            | cons x xs =>
                refine ⟨x, xs, ?_, rfl⟩
                rw [hE0] at hc
                simpa using hc
          obtain ⟨k, hkf⟩ : ∃ k, fuel₂ = k + 1 := by
            refine ⟨fuel₂ - 1, ?_⟩
            simp only [List.length_cons] at h2
            omega
          simp only [cbcEncryptGo, hceq, List.cons_append, hkf, cbcDecryptGo]
          have htake : (cs ++ cbcEncryptGo E f (c0 :: cs) (as.drop 15)).take 15 = cs :=
            List.take_left' hcs
          have hdrop : (cs ++ cbcEncryptGo E f (c0 :: cs) (as.drop 15)).drop 15 =
              cbcEncryptGo E f (c0 :: cs) (as.drop 15) :=
            List.drop_left' hcs
          rw [htake, hdrop, ← hceq, hDE _ hxlen,
            zipXor_zipXor_cancel prev (a :: as.take 15) (by omega), hceq]
          rw [ih k (c0 :: cs) (as.drop 15)
            (by simp [List.length_drop] at h1 ⊢; omega)
            (by simp [List.length_drop] at h2 ⊢; omega)
            (by simp [List.length_drop] at hmod ⊢; omega)
            (by simpa using hcs)]
          simp [List.cons_append, List.take_append_drop]

theorem cbcEncrypt_length (E : Bytes → Bytes) (iv data : Bytes)
    (hE : ∀ b, b.length = 16 → (E b).length = 16)
    (hmod : data.length % 16 = 0) (hiv : iv.length = 16) :
    (cbcEncrypt E iv data).length = data.length :=
  cbcEncryptGo_length E hE data.length iv data le_rfl hmod hiv

theorem cbcDecrypt_cbcEncrypt (E D : Bytes → Bytes) (iv data : Bytes)
    (hE : ∀ b, b.length = 16 → (E b).length = 16)
    (hDE : ∀ b, b.length = 16 → D (E b) = b)
    (hmod : data.length % 16 = 0) (hiv : iv.length = 16) :
    cbcDecrypt D iv (cbcEncrypt E iv data) = data := by
  unfold cbcDecrypt cbcEncrypt
  rw [cbcEncryptGo_length E hE data.length iv data le_rfl hmod hiv]
  exact cbc_go_roundtrip E D hE hDE data.length data.length iv data
    le_rfl le_rfl hmod hiv

theorem pad16_eq (bs : Bytes) :
    pad16 bs = bs ++ List.replicate (16 - bs.length % 16) (16 - bs.length % 16) :=
  rfl

theorem pad16_length (bs : Bytes) :
    (pad16 bs).length = bs.length + (16 - bs.length % 16) := by
  simp [pad16]

theorem pad16_length_mod (bs : Bytes) : (pad16 bs).length % 16 = 0 := by
  rw [pad16_length]
  omega

theorem unpadPKCS7_pad16 (bs : Bytes) : unpadPKCS7 (pad16 bs) = bs := by
  unfold unpadPKCS7
  rw [pad16_eq]
  have hp1 : 1 ≤ 16 - bs.length % 16 := by omega
  obtain ⟨k, hk⟩ : ∃ k, 16 - bs.length % 16 = k + 1 :=
    ⟨16 - bs.length % 16 - 1, by omega⟩
  have hlast : (bs ++ List.replicate (16 - bs.length % 16)
      (16 - bs.length % 16)).getLast? = some (16 - bs.length % 16) := by
    rw [hk, List.replicate_succ', ← List.append_assoc, List.getLast?_concat]
  rw [hlast]
  simp only [Option.getD_some, List.length_append, List.length_replicate,
    Nat.add_sub_cancel]
  exact List.take_left' rfl

/-! ### Path lemmas for `encrypt_data` and `submit_log` -/

theorem encrypt_data_falsy (B : CryptoBackend) (c : HybridCryptoClient)
    (aes_key iv : Bytes) (data : PyData)
    (h : pyFalsyKey c.public_key = true) :
    encrypt_data B c aes_key iv data = ([], .error .configurationError) := by
  simp [encrypt_data, h]

theorem encrypt_data_ok (B : CryptoBackend) (c : HybridCryptoClient)
    (aes_key iv : Bytes) (data : PyData) (pem : String) (pk : Nat)
    (json_bytes : Bytes)
    (hkey : c.public_key = some pem) (hpem : pem.isEmpty = false)
    (hser : serializePayload data = some json_bytes)
    (hparse : B.parseKey pem = some pk) :
    encrypt_data B c aes_key iv data =
      ([.randomGen 32, .randomGen c.iv_length, .aesEncrypt, .rsaParse, .rsaWrap],
       .ok (B.wrap pk aes_key ++ iv ++
            cbcEncrypt (B.blockEnc aes_key) iv (pad16 json_bytes))) := by
  simp [encrypt_data, hkey, pyFalsyKey, hpem, hser, hparse]

theorem encrypt_data_keyFormat (B : CryptoBackend) (c : HybridCryptoClient)
    (aes_key iv : Bytes) (data : PyData) (pem : String) (json_bytes : Bytes)
    (hkey : c.public_key = some pem) (hpem : pem.isEmpty = false)
    (hser : serializePayload data = some json_bytes)
    (hparse : B.parseKey pem = none) :
    encrypt_data B c aes_key iv data =
      ([.randomGen 32, .randomGen c.iv_length, .aesEncrypt, .rsaParse],
       .error .keyFormatError) := by
  simp [encrypt_data, hkey, pyFalsyKey, hpem, hser, hparse]

theorem submit_log_of_encrypt_ok (B : CryptoBackend) (c : HybridCryptoClient)
    (aes_key iv : Bytes) (data : PyData) (respond : String → Bytes → Nat)
    (ev : List Event) (pkt : Bytes)
    (hE : encrypt_data B c aes_key iv data = (ev, .ok pkt)) :
    submit_log B c aes_key iv data respond =
      (ev ++ [.httpPost (c.api_url ++ "/api/logs") "application/octet-stream" pkt],
       if respond (c.api_url ++ "/api/logs") pkt ∈ [200, 201, 202, 204] then
         .ok (respond (c.api_url ++ "/api/logs") pkt)
       else
         .error (.submissionError (respond (c.api_url ++ "/api/logs") pkt))) := by
  simp only [submit_log, hE]
  split <;> rfl

theorem submit_log_of_encrypt_error (B : CryptoBackend) (c : HybridCryptoClient)
    (aes_key iv : Bytes) (data : PyData) (respond : String → Bytes → Nat)
    (ev : List Event) (e : CryptoErr)
    (hE : encrypt_data B c aes_key iv data = (ev, .error e)) :
    submit_log B c aes_key iv data respond = (ev, .error e) := by
  unfold submit_log
  rw [hE]

theorem encrypt_data_trace_no_post (B : CryptoBackend) (c : HybridCryptoClient)
    (aes_key iv : Bytes) (data : PyData) :
    (encrypt_data B c aes_key iv data).1.filter isHttpPost = [] := by
  unfold encrypt_data
  split
  · rfl
  · split
    · rfl
    · split <;> rfl

/-! ### Concrete fixtures used by the witnesses -/

/-- A stand-in PEM string the test backend accepts (2048-bit key, so the
wrapped key is 256 bytes). -/
def testPem : String := "-----BEGIN PUBLIC KEY-----MIIBIjAN-----END PUBLIC KEY-----"

/-- A concrete, invertible instantiation of the external primitives, used
to evaluate the theorems on closed inputs. -/
def testBackend : CryptoBackend :=
  { parseKey := fun s => if s = testPem then some 256 else none
    wrap := fun n key => key ++ List.replicate (n - key.length) 0
    blockEnc := fun key b => zipXor (key.take 16) b }

/-- Private-key operation inverting `testBackend.wrap`. -/
def testUnwrap (w : Bytes) : Bytes := w.take 32

/-- Block decryption inverting `testBackend.blockEnc`. -/
def testBlockDec (key b : Bytes) : Bytes := zipXor (key.take 16) b

/-- A client with the test key configured. -/
def testClient : HybridCryptoClient :=
  { api_url := "https://www.apil.top", public_key := some testPem, iv_length := 16 }

/-- A concrete 32-byte AES key. -/
def testKey : Bytes := List.replicate 32 7

/-- A concrete 16-byte IV. -/
def testIv : Bytes := List.replicate 16 3

/-- A second, different 16-byte IV. -/
def testIv2 : Bytes := List.replicate 16 4

/-- A concrete payload mapping. -/
def testData : PyData := .map [("event", .s "user_login"), ("user_id", .i 12345)]

/-- The canonical serialization of `testData`. -/
def testJson : String := "\x7b\"event\": \"user_login\", \"user_id\": 12345\x7d"

theorem testBlockEnc_length (b : Bytes) (hb : b.length = 16) :
    (testBackend.blockEnc testKey b).length = 16 := by
  simp [testBackend, zipXor_length, testKey, hb]

theorem testBlockDec_blockEnc (b : Bytes) (hb : b.length = 16) :
    testBlockDec testKey (testBackend.blockEnc testKey b) = b := by
  apply zipXor_zipXor_cancel
  simp [testKey, hb]

theorem testUnwrap_wrap : testUnwrap (testBackend.wrap 256 testKey) = testKey := by
  unfold testUnwrap testBackend
  exact List.take_left' (by simp [testKey])

theorem testWrap_length : (testBackend.wrap 256 testKey).length = 256 := by
  show (testKey ++ List.replicate (256 - testKey.length) 0).length = 256
  rw [List.length_append, List.length_replicate]
  rfl

/-! ### Serializer totality characterization -/

theorem dumpsFields_isSome (fields : List (String × JLeaf)) :
    (dumpsFields fields).isSome = (fields.all fun kv => kv.2.serializable) := by
  induction fields with
  | nil => rfl
  | cons kv rest ih =>
      obtain ⟨k, v⟩ := kv
      rw [List.all_cons, ← ih]
      cases v <;> cases hrest : dumpsFields rest <;>
        simp [dumpsFields, dumpsLeaf, JLeaf.serializable, hrest]

theorem dumpsFields_eq_none_iff (fields : List (String × JLeaf)) :
    dumpsFields fields = none ↔
      (fields.all fun kv => kv.2.serializable) = false := by
  rw [← dumpsFields_isSome]
  cases h : dumpsFields fields <;> simp [h]

/-! ### Core encrypt-then-decrypt lemma -/

theorem encrypt_then_decrypt_eq (B : CryptoBackend) (c : HybridCryptoClient)
    (aes_key iv : Bytes) (data : PyData) (pem : String) (pk N : Nat)
    (json_bytes packet : Bytes)
    (unwrap : Bytes → Bytes) (blockDec : Bytes → Bytes → Bytes)
    (hkey : c.public_key = some pem) (hpem : pem.isEmpty = false)
    (hser : serializePayload data = some json_bytes)
    (hparse : B.parseKey pem = some pk)
    (hN : (B.wrap pk aes_key).length = N)
    (hiv : iv.length = 16)
    (hE : ∀ b, b.length = 16 → (B.blockEnc aes_key b).length = 16)
    (hDE : ∀ b, b.length = 16 → blockDec aes_key (B.blockEnc aes_key b) = b)
    (hunwrap : unwrap (B.wrap pk aes_key) = aes_key)
    (henc : (encrypt_data B c aes_key iv data).2 = .ok packet) :
    decrypt_packet N unwrap blockDec packet = json_bytes := by
  rw [encrypt_data_ok B c aes_key iv data pem pk json_bytes hkey hpem hser hparse]
    at henc
  simp only [Except.ok.injEq] at henc
  subst henc
  simp only [decrypt_packet]
  rw [List.append_assoc, List.take_left' hN, List.drop_left' hN,
    List.take_left' hiv, List.drop_left' hiv, hunwrap,
    cbcDecrypt_cbcEncrypt _ _ _ _ hE hDE (pad16_length_mod json_bytes) hiv,
    unpadPKCS7_pad16]

/-! ### The claims -/

/-- C1: encrypting a payload (string or JSON-representable mapping) and
then decrypting the resulting packet with the matching private-key
operation and identical algorithm parameters — RSA unwrap of the first
`N` bytes, AES-256-CBC decryption of the remainder with the 16-byte IV,
then stripping the PKCS#7 padding — recovers exactly the canonical
serialized form of the payload. -/
theorem C1_encrypt_decrypt_roundtrip (B : CryptoBackend)
    (c : HybridCryptoClient) (aes_key iv : Bytes) (data : PyData)
    (pem : String) (pk N : Nat) (json_bytes packet : Bytes)
    (unwrap : Bytes → Bytes) (blockDec : Bytes → Bytes → Bytes)
    (hkey : c.public_key = some pem) (hpem : pem.isEmpty = false)
    (hser : serializePayload data = some json_bytes)
    (hparse : B.parseKey pem = some pk)
    (hN : (B.wrap pk aes_key).length = N)
    (hiv : iv.length = 16)
    (hE : ∀ b, b.length = 16 → (B.blockEnc aes_key b).length = 16)
    (hDE : ∀ b, b.length = 16 → blockDec aes_key (B.blockEnc aes_key b) = b)
    (hunwrap : unwrap (B.wrap pk aes_key) = aes_key)
    (henc : (encrypt_data B c aes_key iv data).2 = .ok packet) :
    decrypt_packet N unwrap blockDec packet = json_bytes :=
  encrypt_then_decrypt_eq B c aes_key iv data pem pk N json_bytes packet
    unwrap blockDec hkey hpem hser hparse hN hiv hE hDE hunwrap henc

/-- Witness for C1 at a concrete backend, key, IV and payload. -/
theorem C1_encrypt_decrypt_roundtrip_witness :
    decrypt_packet 256 testUnwrap testBlockDec
      ((encrypt_data testBackend testClient testKey testIv testData).2.toOption.getD [])
      = utf8Encode testJson :=
  C1_encrypt_decrypt_roundtrip testBackend testClient testKey testIv testData
    testPem 256 256 (utf8Encode testJson)
    ((encrypt_data testBackend testClient testKey testIv testData).2.toOption.getD [])
    testUnwrap testBlockDec rfl rfl (by rfl) rfl testWrap_length rfl
    testBlockEnc_length testBlockDec_blockEnc testUnwrap_wrap (by rfl)

/-- C2: for a plaintext of length `L`, the padding applied before AES
encryption appends `16 − (L mod 16)` bytes (a full extra block of 16,
never 0, when `L mod 16 = 0`), each appended byte equals the padding
length, and the padded length is a multiple of 16. -/
theorem C2_padding_correct (bs : Bytes) :
    pad16 bs = bs ++ List.replicate (16 - bs.length % 16) (16 - bs.length % 16) ∧
    0 < 16 - bs.length % 16 ∧
    16 - bs.length % 16 ≤ 16 ∧
    (bs.length % 16 = 0 → 16 - bs.length % 16 = 16) ∧
    (∀ x ∈ (pad16 bs).drop bs.length, x = 16 - bs.length % 16) ∧
    (pad16 bs).length % 16 = 0 := by
  refine ⟨pad16_eq bs, by omega, by omega, by omega, ?_, pad16_length_mod bs⟩
  intro x hx
  rw [pad16_eq, List.drop_left' rfl] at hx
  exact (List.mem_replicate.mp hx).2

/-- C3: a successful encryption returns exactly the ordered concatenation
`WrappedKey ++ IV ++ CipherBlock` with no length prefix or version
marker, and its total length is `N + 16 + ceil16 (L + 1)` where `N` is
the wrapped-key length and `L` the serialized plaintext length. -/
theorem C3_packet_framing_and_length (B : CryptoBackend)
    (c : HybridCryptoClient) (aes_key iv : Bytes) (data : PyData)
    (pem : String) (pk N : Nat) (json_bytes : Bytes)
    (hkey : c.public_key = some pem) (hpem : pem.isEmpty = false)
    (hser : serializePayload data = some json_bytes)
    (hparse : B.parseKey pem = some pk)
    (hN : (B.wrap pk aes_key).length = N)
    (hiv : iv.length = 16)
    (hE : ∀ b, b.length = 16 → (B.blockEnc aes_key b).length = 16) :
    (encrypt_data B c aes_key iv data).2 =
      .ok (B.wrap pk aes_key ++ iv ++
           cbcEncrypt (B.blockEnc aes_key) iv (pad16 json_bytes)) ∧
    (B.wrap pk aes_key ++ iv ++
      cbcEncrypt (B.blockEnc aes_key) iv (pad16 json_bytes)).length =
      N + 16 + ceil16 (json_bytes.length + 1) := by
  constructor
  · rw [encrypt_data_ok B c aes_key iv data pem pk json_bytes hkey hpem hser hparse]
  · rw [List.append_assoc, List.length_append, List.length_append, hN, hiv,
      cbcEncrypt_length _ _ _ hE (pad16_length_mod json_bytes) hiv,
      pad16_length, ceil16]
    omega

/-- Witness for C3 at a concrete backend, key, IV and payload. -/
theorem C3_packet_framing_and_length_witness :
    (encrypt_data testBackend testClient testKey testIv testData).2 =
      .ok (testBackend.wrap 256 testKey ++ testIv ++
           cbcEncrypt (testBackend.blockEnc testKey) testIv
             (pad16 (utf8Encode testJson))) ∧
    (testBackend.wrap 256 testKey ++ testIv ++
      cbcEncrypt (testBackend.blockEnc testKey) testIv
        (pad16 (utf8Encode testJson))).length =
      256 + 16 + ceil16 ((utf8Encode testJson).length + 1) :=
  C3_packet_framing_and_length testBackend testClient testKey testIv testData
    testPem 256 256 (utf8Encode testJson) rfl rfl (by rfl) rfl
    testWrap_length rfl testBlockEnc_length

/-- C4: calling the encryption entry point with no public key configured
(`None`, or any Python-falsy stored key) fails with the configuration
error before any cryptographic work — the event trace is empty, so no
random bytes are drawn, no cipher runs and no network call happens, for
`encrypt_data` and for the full `submit_log` path alike. -/
theorem C4_no_key_fails_before_crypto_and_network (B : CryptoBackend)
    (c : HybridCryptoClient) (aes_key iv : Bytes) (data : PyData)
    (respond : String → Bytes → Nat)
    (h : pyFalsyKey c.public_key = true) :
    encrypt_data B c aes_key iv data = ([], .error .configurationError) ∧
    submit_log B c aes_key iv data respond = ([], .error .configurationError) := by
  have he := encrypt_data_falsy B c aes_key iv data h
  exact ⟨he, submit_log_of_encrypt_error B c aes_key iv data respond [] _ he⟩

/-- Witness for C4 on a freshly constructed client (public key `None`). -/
theorem C4_no_key_fails_before_crypto_and_network_witness :
    encrypt_data testBackend (mkClient "https://www.apil.top") testKey testIv
      testData = ([], .error .configurationError) ∧
    submit_log testBackend (mkClient "https://www.apil.top") testKey testIv
      testData (fun _ _ => 200) = ([], .error .configurationError) :=
  C4_no_key_fails_before_crypto_and_network testBackend
    (mkClient "https://www.apil.top") testKey testIv testData
    (fun _ _ => 200) rfl

/-- C5: a submission whose response status lies in {200, 201, 202, 204}
succeeds returning that status, any other status yields
`SubmissionError` carrying the numeric code, and in either case exactly
one HTTP POST is issued — no retry precedes the error surfacing. -/
theorem C5_status_classification (B : CryptoBackend)
    (c : HybridCryptoClient) (aes_key iv : Bytes) (data : PyData)
    (respond : String → Bytes → Nat) (ev : List Event) (pkt : Bytes)
    (hE : encrypt_data B c aes_key iv data = (ev, .ok pkt)) :
    submit_log B c aes_key iv data respond =
      (ev ++ [.httpPost (c.api_url ++ "/api/logs") "application/octet-stream" pkt],
       if respond (c.api_url ++ "/api/logs") pkt ∈ [200, 201, 202, 204] then
         .ok (respond (c.api_url ++ "/api/logs") pkt)
       else
         .error (.submissionError (respond (c.api_url ++ "/api/logs") pkt))) ∧
    ((submit_log B c aes_key iv data respond).1.filter isHttpPost).length = 1 := by
  have hnp : ev.filter isHttpPost = [] := by
    have h := encrypt_data_trace_no_post B c aes_key iv data
    rw [hE] at h
    exact h
  have hmain := submit_log_of_encrypt_ok B c aes_key iv data respond ev pkt hE
  refine ⟨hmain, ?_⟩
  rw [hmain]
  simp [List.filter_append, hnp, isHttpPost]

/-- Witness for C5 with a server that answers 500: the result is a
`SubmissionError` carrying 500 after exactly one POST. -/
theorem C5_status_classification_witness :
    submit_log testBackend testClient testKey testIv testData
      (fun _ _ => 500) =
      ([Event.randomGen 32, Event.randomGen 16, Event.aesEncrypt,
        Event.rsaParse, Event.rsaWrap] ++
       [.httpPost (testClient.api_url ++ "/api/logs") "application/octet-stream"
          ((encrypt_data testBackend testClient testKey testIv testData).2.toOption.getD [])],
       if (500 : Nat) ∈ [200, 201, 202, 204] then
         .ok 500
       else
         .error (.submissionError 500)) ∧
    ((submit_log testBackend testClient testKey testIv testData
        (fun _ _ => 500)).1.filter isHttpPost).length = 1 :=
  C5_status_classification testBackend testClient testKey testIv testData
    (fun _ _ => 500)
    [Event.randomGen 32, Event.randomGen 16, Event.aesEncrypt,
      Event.rsaParse, Event.rsaWrap]
    ((encrypt_data testBackend testClient testKey testIv testData).2.toOption.getD [])
    (by rfl)

/-- C6: two encryptions of the same payload under fresh randomness — in
particular distinct IVs — produce different packets, yet both packets
decrypt to the identical serialized plaintext. -/
theorem C6_fresh_randomness_distinct_packets (B : CryptoBackend)
    (c : HybridCryptoClient) (k1 k2 iv1 iv2 : Bytes) (data : PyData)
    (pem : String) (pk N : Nat) (json_bytes p1 p2 : Bytes)
    (unwrap : Bytes → Bytes) (blockDec : Bytes → Bytes → Bytes)
    (hkey : c.public_key = some pem) (hpem : pem.isEmpty = false)
    (hser : serializePayload data = some json_bytes)
    (hparse : B.parseKey pem = some pk)
    (hN1 : (B.wrap pk k1).length = N) (hN2 : (B.wrap pk k2).length = N)
    (hiv1 : iv1.length = 16) (hiv2 : iv2.length = 16)
    (hne : iv1 ≠ iv2)
    (hE1 : ∀ b, b.length = 16 → (B.blockEnc k1 b).length = 16)
    (hE2 : ∀ b, b.length = 16 → (B.blockEnc k2 b).length = 16)
    (hDE1 : ∀ b, b.length = 16 → blockDec k1 (B.blockEnc k1 b) = b)
    (hDE2 : ∀ b, b.length = 16 → blockDec k2 (B.blockEnc k2 b) = b)
    (hun1 : unwrap (B.wrap pk k1) = k1) (hun2 : unwrap (B.wrap pk k2) = k2)
    (henc1 : (encrypt_data B c k1 iv1 data).2 = .ok p1)
    (henc2 : (encrypt_data B c k2 iv2 data).2 = .ok p2) :
    p1 ≠ p2 ∧
    decrypt_packet N unwrap blockDec p1 = json_bytes ∧
    decrypt_packet N unwrap blockDec p2 = json_bytes := by
  have hd1 := encrypt_then_decrypt_eq B c k1 iv1 data pem pk N json_bytes p1
    unwrap blockDec hkey hpem hser hparse hN1 hiv1 hE1 hDE1 hun1 henc1
  have hd2 := encrypt_then_decrypt_eq B c k2 iv2 data pem pk N json_bytes p2
    unwrap blockDec hkey hpem hser hparse hN2 hiv2 hE2 hDE2 hun2 henc2
  refine ⟨?_, hd1, hd2⟩
  rw [encrypt_data_ok B c k1 iv1 data pem pk json_bytes hkey hpem hser hparse]
    at henc1
  rw [encrypt_data_ok B c k2 iv2 data pem pk json_bytes hkey hpem hser hparse]
    at henc2
  simp only [Except.ok.injEq] at henc1 henc2
  subst henc1
  subst henc2
  intro heq
  apply hne
  have e1 : ((B.wrap pk k1 ++ iv1 ++
      cbcEncrypt (B.blockEnc k1) iv1 (pad16 json_bytes)).drop N).take 16 = iv1 := by
    rw [List.append_assoc, List.drop_left' hN1, List.take_left' hiv1]
  have e2 : ((B.wrap pk k2 ++ iv2 ++
      cbcEncrypt (B.blockEnc k2) iv2 (pad16 json_bytes)).drop N).take 16 = iv2 := by
    rw [List.append_assoc, List.drop_left' hN2, List.take_left' hiv2]
  rw [← e1, ← e2, heq]

/-- Witness for C6: two concrete encryptions differing only in the IV. -/
theorem C6_fresh_randomness_distinct_packets_witness :
    ((encrypt_data testBackend testClient testKey testIv testData).2.toOption.getD []) ≠
      ((encrypt_data testBackend testClient testKey testIv2 testData).2.toOption.getD []) ∧
    decrypt_packet 256 testUnwrap testBlockDec
      ((encrypt_data testBackend testClient testKey testIv testData).2.toOption.getD []) =
      utf8Encode testJson ∧
    decrypt_packet 256 testUnwrap testBlockDec
      ((encrypt_data testBackend testClient testKey testIv2 testData).2.toOption.getD []) =
      utf8Encode testJson :=
  C6_fresh_randomness_distinct_packets testBackend testClient testKey testKey
    testIv testIv2 testData testPem 256 256 (utf8Encode testJson)
    ((encrypt_data testBackend testClient testKey testIv testData).2.toOption.getD [])
    ((encrypt_data testBackend testClient testKey testIv2 testData).2.toOption.getD [])
    testUnwrap testBlockDec rfl rfl (by rfl) rfl
    testWrap_length testWrap_length rfl rfl (by decide)
    testBlockEnc_length testBlockEnc_length
    testBlockDec_blockEnc testBlockDec_blockEnc
    testUnwrap_wrap testUnwrap_wrap (by rfl) (by rfl)

/-- C7: the serializer passes a string input through unchanged as its
UTF-8 bytes (no JSON quoting), serializes an all-serializable mapping to
the UTF-8 bytes of its deterministic JSON text, and rejects a mapping
containing a non-serializable leaf. -/
theorem C7_serializer_behaviour :
    (∀ s : String, serializePayload (.str s) = some (utf8Encode s)) ∧
    (∀ fields : List (String × JLeaf),
      (fields.all fun kv => kv.2.serializable) = true →
        ∃ out, dumpsMap fields = some out ∧
          serializePayload (.map fields) = some (utf8Encode out)) ∧
    (∀ fields : List (String × JLeaf),
      (fields.all fun kv => kv.2.serializable) = false →
        serializePayload (.map fields) = none) := by
  refine ⟨fun s => rfl, ?_, ?_⟩
  · intro fields hall
    cases hd : dumpsFields fields with
    | none =>
        rw [dumpsFields_eq_none_iff] at hd
        rw [hall] at hd
        exact Bool.noConfusion hd
    | some parts =>
        refine ⟨"\x7b" ++ String.intercalate ", " parts ++ "\x7d", ?_, ?_⟩
        · simp [dumpsMap, hd]
        · simp [serializePayload, dumpsMap, hd]
  · intro fields hall
    have hnone := (dumpsFields_eq_none_iff fields).mpr hall
    simp [serializePayload, dumpsMap, hnone]

/-- C8: a submission whose encryption succeeds issues exactly one HTTP
POST, to `<api_url>/api/logs`, with content type
`application/octet-stream` and the assembled packet as raw body. -/
theorem C8_single_post_fixed_path (B : CryptoBackend)
    (c : HybridCryptoClient) (aes_key iv : Bytes) (data : PyData)
    (respond : String → Bytes → Nat) (ev : List Event) (pkt : Bytes)
    (hE : encrypt_data B c aes_key iv data = (ev, .ok pkt)) :
    (submit_log B c aes_key iv data respond).1.filter isHttpPost =
      [.httpPost (c.api_url ++ "/api/logs") "application/octet-stream" pkt] := by
  have hnp : ev.filter isHttpPost = [] := by
    have h := encrypt_data_trace_no_post B c aes_key iv data
    rw [hE] at h
    exact h
  rw [submit_log_of_encrypt_ok B c aes_key iv data respond ev pkt hE]
  simp [List.filter_append, hnp, isHttpPost]

/-- Witness for C8 at a concrete submission. -/
theorem C8_single_post_fixed_path_witness :
    (submit_log testBackend testClient testKey testIv testData
        (fun _ _ => 200)).1.filter isHttpPost =
      [.httpPost (testClient.api_url ++ "/api/logs") "application/octet-stream"
        ((encrypt_data testBackend testClient testKey testIv testData).2.toOption.getD [])] :=
  C8_single_post_fixed_path testBackend testClient testKey testIv testData
    (fun _ _ => 200)
    [Event.randomGen 32, Event.randomGen 16, Event.aesEncrypt,
      Event.rsaParse, Event.rsaWrap]
    ((encrypt_data testBackend testClient testKey testIv testData).2.toOption.getD [])
    (by rfl)

/-- C9: `set_public_key` stores any string unparsed and returns `True`
with no validation; a malformed (unparsable, non-empty) key surfaces as
the key-format error only inside `encrypt_data`, after the random
key/IV generation and the AES encryption have already happened, as the
event trace shows. -/
theorem C9_set_key_unvalidated_parse_deferred (B : CryptoBackend)
    (c' : HybridCryptoClient) (t : String)
    (c₀ : HybridCryptoClient) (s : String) (aes_key iv : Bytes)
    (data : PyData) (json_bytes : Bytes)
    (hpem : s.isEmpty = false) (hparse : B.parseKey s = none)
    (hser : serializePayload data = some json_bytes) :
    set_public_key c' t = ({ c' with public_key := some t }, true) ∧
    encrypt_data B (set_public_key c₀ s).1 aes_key iv data =
      ([.randomGen 32, .randomGen c₀.iv_length, .aesEncrypt, .rsaParse],
       .error .keyFormatError) :=
  ⟨rfl, encrypt_data_keyFormat B _ aes_key iv data s json_bytes rfl hpem hser hparse⟩

/-- Witness for C9 with a concrete malformed key string. -/
theorem C9_set_key_unvalidated_parse_deferred_witness :
    set_public_key (mkClient "https://www.apil.top") "not a valid pem" =
      ({ mkClient "https://www.apil.top" with
          public_key := some "not a valid pem" }, true) ∧
    encrypt_data testBackend
      (set_public_key (mkClient "https://www.apil.top") "not a valid pem").1
      testKey testIv testData =
      ([.randomGen 32, .randomGen (mkClient "https://www.apil.top").iv_length,
        .aesEncrypt, .rsaParse], .error .keyFormatError) :=
  C9_set_key_unvalidated_parse_deferred testBackend
    (mkClient "https://www.apil.top") "not a valid pem"
    (mkClient "https://www.apil.top") "not a valid pem" testKey testIv
    testData (utf8Encode testJson) rfl (by decide) (by rfl)

/-- C10: after `set_public_key("")` every encryption attempt raises the
no-public-key-configured error, exactly as with the unset `None`: the
configuration check treats any falsy stored value as no key. -/
theorem C10_empty_string_key_unconfigured (B : CryptoBackend)
    (c : HybridCryptoClient) (aes_key iv : Bytes) (data : PyData) :
    encrypt_data B (set_public_key c "").1 aes_key iv data =
      ([], .error .configurationError) ∧
    encrypt_data B { c with public_key := none } aes_key iv data =
      ([], .error .configurationError) :=
  ⟨encrypt_data_falsy B _ aes_key iv data rfl,
   encrypt_data_falsy B _ aes_key iv data rfl⟩
